import Mathlib

/-!
Shallow embedding of the portfolio / market-data core of the repository
(`src/api_library.py`): the `Transaction`/`Buy`/`Sell` hierarchy and
`Portfolio` (funds, transaction log, valuation), the `MarketData` client
(`fetch_data`, row filtering, cache and timestamp), and the rate limiter
(`PullData._rate_limit` and its inner `limited_get`).

Python floats are modelled as exact rationals (`ℚ`), dictionaries of
prices as `String → Option ℚ`, and JSON rows as records of `Option`
fields (a field is `some v` when the key is present with value `v`).
-/

/-- Kind tag of a transaction. The source expresses this as the `Buy` and
`Sell` subclasses of the abstract `Transaction` class; the sign of `value`
is the only behavioural difference between them. -/
inductive TxKind where
  | buy
  | sell
deriving DecidableEq, Repr

/-- One transaction from the source's `Transaction`/`Buy`/`Sell` classes:
`crypto_id` and `amount` from `Transaction.__init__`, and `pointPrice`,
the current price captured once at construction time by the `Buy`/`Sell`
constructors. -/
structure Transaction where
  kind : TxKind
  crypto_id : String
  amount : ℚ
  pointPrice : ℚ
deriving DecidableEq, Repr

/-- Model of the value methods: `Buy.value` returns `-1 * self.amount * self.pointPrice`;
`Sell.value` returns `self.amount * self.pointPrice`. -/
def Transaction.value (t : Transaction) : ℚ :=
  match t.kind with
  | TxKind.buy => -1 * t.amount * t.pointPrice
  | TxKind.sell => t.amount * t.pointPrice

/-- State of the source's `Portfolio` class: the `_transactions` log,
`funds`, and the unused `portfolio_value` field set to `0` in
`__init__`. -/
structure Portfolio where
  _transactions : List Transaction
  funds : ℚ
  portfolio_value : ℚ
deriving DecidableEq, Repr

/-- Model of `Portfolio.__init__(startingFunds)`. The source initialises the log
with the stray type expression `List[Transaction]`; the intended value,
as the repository's spec records, is the empty list, which is what any
append-only log starts as. `funds = startingFunds`, `portfolio_value = 0`. -/
def Portfolio.init (startingFunds : ℚ) : Portfolio :=
  { _transactions := [], funds := startingFunds, portfolio_value := 0 }

/-- Model of `Portfolio.makeTransaction(transaction)`: unconditionally appends the
transaction to the log and adds `transaction.value()` to `funds`. The
source performs no validation here: there is no holdings check and no
funds check. -/
def Portfolio.makeTransaction (p : Portfolio) (t : Transaction) : Portfolio :=
  { p with
    _transactions := p._transactions ++ [t]
    funds := p.funds + t.value }

/-- Net holdings of one coin, as computed by the loop at the top of
`Portfolio.seePortfolioValue`: start from `0`, add `amount` for each
`Buy` of that coin, subtract it for each `Sell`. -/
def holdingsOf (ts : List Transaction) (coin : String) : ℚ :=
  ts.foldl
    (fun acc t =>
      if t.crypto_id = coin then
        match t.kind with
        | TxKind.buy => acc + t.amount
        | TxKind.sell => acc - t.amount
      else acc)
    0

/-- Distinct coins appearing in the log — the key set of the `holdings`
dictionary built by `seePortfolioValue`. -/
def coinsOf (ts : List Transaction) : List String :=
  (ts.map (fun t => t.crypto_id)).dedup

/-- Round-half-to-even at integer precision, the semantics of Python's
built-in `round`. -/
def roundHalfEven (q : ℚ) : ℤ :=
  let f := ⌊q⌋
  let frac := q - (f : ℚ)
  if frac < 1 / 2 then f
  else if 1 / 2 < frac then f + 1
  else if f % 2 = 0 then f else f + 1

/-- Python's `round(x, 2)`: round half to even at two fractional digits. -/
def roundTo2 (q : ℚ) : ℚ :=
  ((roundHalfEven (q * 100) : ℤ) : ℚ) / 100

/-- Model of `Portfolio.seePortfolioValue`: returns `0.0` for an empty log;
otherwise builds the `holdings` dictionary, looks up current prices
(modelled as the supplied `prices` map, the result of
`get_current_price`), sums `price * amount` over the coins present in
`prices` (coins absent from `prices` contribute nothing), and rounds the
total to two digits. -/
def Portfolio.seePortfolioValue (p : Portfolio) (prices : String → Option ℚ) : ℚ :=
  if p._transactions.isEmpty then 0
  else
    roundTo2
      (((coinsOf p._transactions).map
          (fun coin =>
            match prices coin with
            | some pr => pr * holdingsOf p._transactions coin
            | none => 0)).sum)

/-- Model of `Portfolio.seeCurrentFunds`: `round(self.funds, 2)`. -/
def Portfolio.seeCurrentFunds (p : Portfolio) : ℚ :=
  roundTo2 p.funds

/-- Identity of the function object bound to the module-level name
`requests.get`: either the library's original function or the `limited_get`
closure defined inside `PullData._rate_limit`. -/
inductive TransportFn where
  | originalGet
  | limitedGet
deriving DecidableEq, Repr

/-- The module-level mutable slot `requests.get` shared by every caller of
the `requests` library in the process. -/
structure RequestsModule where
  get : TransportFn
deriving DecidableEq, Repr

/-- Mutable state of a `PullData` instance: `last_request_time`,
`rate_limit_delay` (10.0) and `max_retries` (5) from `PullData.__init__`. -/
structure PullDataS where
  last_request_time : ℚ
  rate_limit_delay : ℚ
  max_retries : Nat
deriving DecidableEq, Repr

/-- Model of `PullData._rate_limit`: sleeps out the remainder of
`rate_limit_delay` if needed, records `last_request_time = time.time()`
(modelled by the `now` argument), then assigns the fresh `limited_get`
closure to the module-level `requests.get` and returns. Nothing ever
restores the previous value of `requests.get`. -/
def rate_limit (st : PullDataS) (_req : RequestsModule) (now : ℚ) :
    PullDataS × RequestsModule :=
  ({ st with last_request_time := now }, { get := TransportFn.limitedGet })

/-- One response observed by `limited_get`'s loop from the captured
`original_get`: a 429 with an optional (truthy) `Retry-After` header, or
any other response, carrying its status code, which the loop returns. -/
inductive LGResp where
  | throttled (retryAfter : Option ℚ)
  | done (status : Nat)
deriving DecidableEq, Repr

/-- Whether a response takes the `status_code == 429` branch. -/
def isThrottled : LGResp → Bool
  | LGResp.throttled _ => true
  | LGResp.done _ => false

/-- The `Retry-After` value of a 429 response, `none` otherwise. -/
def raOf : LGResp → Option ℚ
  | LGResp.throttled ra => ra
  | LGResp.done _ => none

/-- Result of a `limited_get` call: the response returned, or the
`RuntimeError` raised once the retry limit is exceeded. -/
inductive LGOutcome where
  | returned (status : Nat)
  | exceeded
deriving DecidableEq, Repr

/-- Wait computed by `limited_get` for a 429 seen with `retries` prior
retries: `float(retry_after)` when the header is present (and non-empty),
else `self.rate_limit_delay * (2 ** retries)`. -/
def retryWait (delay : ℚ) (retries : Nat) (ra : Option ℚ) : ℚ :=
  match ra with
  | some t => t
  | none => delay * 2 ^ retries

/-- Loop body of `limited_get`. `responses n` is the response the `n`-th
call to the captured `original_get` yields (the `retries` counter equals
the attempt index, both starting at 0). `fuel` is the number of further
retries still allowed before `retries > self.max_retries` trips: on a 429
the code computes the wait, sleeps it, increments `retries`, and raises
when the incremented counter exceeds `max_retries` — i.e. exactly when
`fuel` was 0. Returns the list of waits slept, in order, and the outcome. -/
def limited_get_go (delay : ℚ) (responses : Nat → LGResp) (retries fuel : Nat) :
    List ℚ × LGOutcome :=
  match responses retries, fuel with
  | LGResp.done s, _ => ([], LGOutcome.returned s)
  | LGResp.throttled ra, 0 => ([retryWait delay retries ra], LGOutcome.exceeded)
  | LGResp.throttled ra, Nat.succ f =>
    let r := limited_get_go delay responses (retries + 1) f
    (retryWait delay retries ra :: r.1, r.2)
termination_by fuel

/-- Model of `limited_get(*args, **kwargs)`: run the retry loop with `retries = 0`
and `max_retries` further retries allowed after the first 429. -/
def limited_get (delay : ℚ) (maxRetries : Nat) (responses : Nat → LGResp) :
    List ℚ × LGOutcome :=
  limited_get_go delay responses 0 maxRetries

/-- One JSON row of the upstream `coins/markets` response, as the fields
`MarketData.fetch_data` reads may or may not be present. A field is
`some v` when the key is present (with a usable value `v`), `none` when
absent. `id` is part of the upstream schema but is never read by
`fetch_data`. -/
structure UpstreamRow where
  id : Option String
  name : Option String
  symbol : Option String
  current_price : Option ℚ
  price_change_percentage_24h : Option ℚ
  market_cap : Option ℚ
  total_volume : Option ℚ
  high_24h : Option ℚ
  low_24h : Option ℚ
deriving DecidableEq, Repr

/-- One row of the normalized table `MarketData._data`, the dictionary
built by the loop in `fetch_data`. -/
structure CryptoRow where
  name : String
  symbol : String
  current_price : ℚ
  change_24h : ℚ
  market_cap : ℚ
  volume_24h : ℚ
  high_24h : ℚ
  low_24h : ℚ
deriving DecidableEq, Repr

/-- Row filter and reshaping from `fetch_data`'s loop: a row is skipped
(`continue`) unless all of the keys `name`, `symbol`, `current_price` are
present; a kept row is rebuilt with `i.get(key, default)` for each target
column. -/
def parseRow (r : UpstreamRow) : Option CryptoRow :=
  if r.name.isSome && r.symbol.isSome && r.current_price.isSome then
    some
      { name := r.name.getD "Unknown"
        symbol := r.symbol.getD "unknown"
        current_price := r.current_price.getD 0
        change_24h := r.price_change_percentage_24h.getD 0
        market_cap := r.market_cap.getD 0
        volume_24h := r.total_volume.getD 0
        high_24h := r.high_24h.getD 0
        low_24h := r.low_24h.getD 0 }
  else none

/-- State of a `MarketData` instance: `_base_currency`, the cached table
`_data` (empty at construction) and `_previous_updates` (the timestamp of
the last successful fetch; `None` at construction). Timestamps are
modelled as natural numbers. -/
structure MarketData where
  _base_currency : String
  _data : List CryptoRow
  _previous_updates : Option Nat
deriving DecidableEq, Repr

/-- Model of `MarketData.__init__(start_currency)`: raises `ValueError` when the
currency is empty or whitespace-only (`not start_currency or not
start_currency.strip()`, i.e. every character is whitespace), otherwise
starts with an empty table and no previous update. -/
def MarketData.mk_init (start_currency : String) : Except String MarketData :=
  if start_currency.toList.all (fun ch => ch.isWhitespace) then
    Except.error "Base currency cannot be empty"
  else
    Except.ok
      { _base_currency := start_currency, _data := [], _previous_updates := none }

/-- What the transport layer yields for `fetch_data`'s single
`requests.get` call: a 429, one of the caught exception classes, or a
parsed JSON body (a list of rows, possibly empty). -/
inductive HttpResult where
  | status429
  | timeoutErr
  | connectionError
  | requestException
  | otherException
  | ok (rows : List UpstreamRow)
deriving DecidableEq, Repr

/-- How a `fetch_data` call ends: the `ValueError` raised on an
out-of-range limit, or the boolean the function returns. -/
inductive FetchResult where
  | invalidLimit
  | fetched (success : Bool)
deriving DecidableEq, Repr

/-- Observable outcome of one `fetch_data` call: whether the
`requests.get` line ran, how the call ended, and the instance state
afterwards. -/
structure FetchOutcome where
  requestIssued : Bool
  result : FetchResult
  state : MarketData
deriving DecidableEq, Repr

/-- Model of `MarketData.fetch_data(limit)`: raises `ValueError` unless
`1 <= limit <= 250` (before any network activity); then issues the
request. A 429, any caught exception, an empty body, or a body whose rows
are all filtered out each return `False` having touched no state; on
success `_data` and `_previous_updates` are both replaced (with the
filtered rows and `datetime.now()`, modelled by `now`) and the call
returns `True`. -/
def MarketData.fetch_data (md : MarketData) (limit : ℤ) (resp : HttpResult)
    (now : Nat) : FetchOutcome :=
  if 1 ≤ limit ∧ limit ≤ 250 then
    match resp with
    | HttpResult.status429 =>
      { requestIssued := true, result := FetchResult.fetched false, state := md }
    | HttpResult.timeoutErr =>
      { requestIssued := true, result := FetchResult.fetched false, state := md }
    | HttpResult.connectionError =>
      { requestIssued := true, result := FetchResult.fetched false, state := md }
    | HttpResult.requestException =>
      { requestIssued := true, result := FetchResult.fetched false, state := md }
    | HttpResult.otherException =>
      { requestIssued := true, result := FetchResult.fetched false, state := md }
    | HttpResult.ok rows =>
      if rows.isEmpty then
        { requestIssued := true, result := FetchResult.fetched false, state := md }
      else
        let crypto_list := rows.filterMap parseRow
        if crypto_list.isEmpty then
          { requestIssued := true, result := FetchResult.fetched false, state := md }
        else
          { requestIssued := true
            result := FetchResult.fetched true
            state :=
              { md with _data := crypto_list, _previous_updates := some now } }
  else { requestIssued := false, result := FetchResult.invalidLimit, state := md }

/-- A fresh `MarketData("usd")` instance, used as a concrete state in
witnesses and counterexamples. -/
def md0 : MarketData :=
  { _base_currency := "usd", _data := [], _previous_updates := none }

/-- An upstream row with no `id` key, an empty `symbol` and a negative
`current_price`, but with all three keys `fetch_data` actually requires
(`name`, `symbol`, `current_price`) present. -/
def badRow : UpstreamRow :=
  { id := none
    name := some "Coin"
    symbol := some ""
    current_price := some (-1)
    price_change_percentage_24h := none
    market_cap := none
    total_volume := none
    high_24h := none
    low_24h := none }

/-- A concrete transport trace: a 429 carrying `Retry-After: 7`, then a
429 with no header, then a 200. -/
def rsW : Nat → LGResp := fun i =>
  if i = 0 then LGResp.throttled (some 7)
  else if i = 1 then LGResp.throttled none
  else LGResp.done 200

/-- Folding `makeTransaction` over a list of transactions adds the sum of
their values to `funds` and appends them, in order, to the log. -/
theorem foldl_makeTransaction_spec (ts : List Transaction) (p : Portfolio) :
    (ts.foldl Portfolio.makeTransaction p).funds
        = p.funds + (ts.map Transaction.value).sum ∧
    (ts.foldl Portfolio.makeTransaction p)._transactions
        = p._transactions ++ ts := by
  induction ts generalizing p with
  | nil => simp
  | cons t ts ih =>
    simp only [List.foldl_cons, List.map_cons, List.sum_cons]
    refine ⟨?_, ?_⟩
    · rw [(ih (p.makeTransaction t)).1]
      simp [Portfolio.makeTransaction]
      ring
    · rw [(ih (p.makeTransaction t)).2]
      simp [Portfolio.makeTransaction]

/-- Claim C1: for every Portfolio created with `startingFunds` and every
sequence of transactions executed through `makeTransaction`, the funds
equal `startingFunds` plus the sum of `value()` over the transactions in
the log, and the log holds exactly the executed transactions. In the
source every executed transaction is accepted (`makeTransaction` has no
rejection path), so no rejected transaction can appear in the log or move
funds. -/
theorem funds_conservation (startingFunds : ℚ) (ts : List Transaction) :
    (ts.foldl Portfolio.makeTransaction (Portfolio.init startingFunds)).funds
        = startingFunds
          + (((ts.foldl Portfolio.makeTransaction
                (Portfolio.init startingFunds))._transactions).map
              Transaction.value).sum ∧
    (ts.foldl Portfolio.makeTransaction
        (Portfolio.init startingFunds))._transactions = ts := by
  have h := foldl_makeTransaction_spec ts (Portfolio.init startingFunds)
  have hlog : (ts.foldl Portfolio.makeTransaction
      (Portfolio.init startingFunds))._transactions = ts := by
    rw [h.2]; simp [Portfolio.init]
  refine ⟨?_, hlog⟩
  rw [hlog, h.1]
  simp [Portfolio.init]

/-- Claim C2 (divergence witness): with zero holdings of bitcoin, a Sell
of 1 unit at price 50000 is accepted by `makeTransaction`: the log gains
the sell, funds grow to 50100, and the derived holdings go to -1. There
is no `InsufficientHoldings` rejection anywhere in the source. -/
theorem oversell_accepted_unguarded :
    ((Portfolio.init 100).makeTransaction
        ⟨TxKind.sell, "bitcoin", 1, 50000⟩).funds = 50100 ∧
    ((Portfolio.init 100).makeTransaction
        ⟨TxKind.sell, "bitcoin", 1, 50000⟩)._transactions
      = [⟨TxKind.sell, "bitcoin", 1, 50000⟩] ∧
    holdingsOf ((Portfolio.init 100).makeTransaction
        ⟨TxKind.sell, "bitcoin", 1, 50000⟩)._transactions "bitcoin" = -1 := by
  refine ⟨?_, rfl, ?_⟩ <;>
    norm_num [Portfolio.init, Portfolio.makeTransaction, Transaction.value,
      holdingsOf]

/-- Claim C3 (divergence witness): with `startingFunds = 100`, a Buy of 1
unit at price 50000 is accepted by `makeTransaction`: funds drop to
-49900 and the buy lands in the log, instead of the claimed
`InsufficientFunds` rejection that would leave funds at 100 and the log
empty. -/
theorem buy_on_insufficient_funds_accepted :
    ((Portfolio.init 100).makeTransaction
        ⟨TxKind.buy, "bitcoin", 1, 50000⟩).funds = -49900 ∧
    ((Portfolio.init 100).makeTransaction
        ⟨TxKind.buy, "bitcoin", 1, 50000⟩)._transactions
      = [⟨TxKind.buy, "bitcoin", 1, 50000⟩] := by
  refine ⟨?_, rfl⟩
  norm_num [Portfolio.init, Portfolio.makeTransaction, Transaction.value]

/-- Claim C7 (counterexample): from a ledger that already holds 1 bitcoin,
a Buy of 1 unit at price 10 (quantity and price both positive, both
transactions accepted) followed by a Sell of 1 unit at the same price
leaves holdings of bitcoin at 1, not 0 as the claim states for every
ledger state. -/
theorem round_trip_holdings_counterexample :
    (0 : ℚ) < 1 ∧ (0 : ℚ) < 10 ∧
    holdingsOf ((((Portfolio.init 1000).makeTransaction
          ⟨TxKind.buy, "bitcoin", 1, 10⟩).makeTransaction
            ⟨TxKind.buy, "bitcoin", 1, 10⟩).makeTransaction
              ⟨TxKind.sell, "bitcoin", 1, 10⟩)._transactions "bitcoin" ≠ 0 := by
  refine ⟨by norm_num, by norm_num, ?_⟩
  norm_num [Portfolio.init, Portfolio.makeTransaction, holdingsOf]

/-- Claim C7 as amended: for every ledger state, quantity `q > 0` and
price `pr > 0`, an accepted Buy of `q` at `pr` followed by an accepted
Sell of `q` at `pr` restores funds to their pre-Buy value and restores
the holdings of the instrument to their pre-Buy value; in particular the
holdings end at 0 whenever they started at 0 (as in the spec's scenario,
which starts from an empty ledger). -/
theorem round_trip_restores (p : Portfolio) (coin : String) (q pr : ℚ)
    (hq : 0 < q) (hpr : 0 < pr) :
    ((p.makeTransaction ⟨TxKind.buy, coin, q, pr⟩).makeTransaction
        ⟨TxKind.sell, coin, q, pr⟩).funds = p.funds ∧
    holdingsOf ((p.makeTransaction ⟨TxKind.buy, coin, q, pr⟩).makeTransaction
        ⟨TxKind.sell, coin, q, pr⟩)._transactions coin
      = holdingsOf p._transactions coin ∧
    (holdingsOf p._transactions coin = 0 →
      holdingsOf ((p.makeTransaction
          ⟨TxKind.buy, coin, q, pr⟩).makeTransaction
            ⟨TxKind.sell, coin, q, pr⟩)._transactions coin = 0) := by
  have hfunds : ((p.makeTransaction ⟨TxKind.buy, coin, q, pr⟩).makeTransaction
      ⟨TxKind.sell, coin, q, pr⟩).funds = p.funds := by
    simp [Portfolio.makeTransaction, Transaction.value]
  have hhold : holdingsOf ((p.makeTransaction
      ⟨TxKind.buy, coin, q, pr⟩).makeTransaction
        ⟨TxKind.sell, coin, q, pr⟩)._transactions coin
      = holdingsOf p._transactions coin := by
    simp [Portfolio.makeTransaction, holdingsOf, List.foldl_append]
  exact ⟨hfunds, hhold, fun h0 => hhold.trans h0⟩

/-- Witness for `round_trip_restores`: the spec scenario. Starting funds
1000, Buy of 0.01 bitcoin at 50000 then Sell of 0.01 at 50000 restore the
funds and the (initially zero) holdings. -/
theorem round_trip_restores_witness :
    (((Portfolio.init 1000).makeTransaction
        ⟨TxKind.buy, "bitcoin", 1 / 100, 50000⟩).makeTransaction
        ⟨TxKind.sell, "bitcoin", 1 / 100, 50000⟩).funds
      = (Portfolio.init 1000).funds ∧
    holdingsOf (((Portfolio.init 1000).makeTransaction
        ⟨TxKind.buy, "bitcoin", 1 / 100, 50000⟩).makeTransaction
        ⟨TxKind.sell, "bitcoin", 1 / 100, 50000⟩)._transactions "bitcoin"
      = holdingsOf (Portfolio.init 1000)._transactions "bitcoin" ∧
    (holdingsOf (Portfolio.init 1000)._transactions "bitcoin" = 0 →
      holdingsOf (((Portfolio.init 1000).makeTransaction
          ⟨TxKind.buy, "bitcoin", 1 / 100, 50000⟩).makeTransaction
          ⟨TxKind.sell, "bitcoin", 1 / 100, 50000⟩)._transactions "bitcoin"
        = 0) :=
  round_trip_restores (Portfolio.init 1000) "bitcoin" (1 / 100) 50000
    (by norm_num) (by norm_num)

/-- Claim C5 (divergence witness): `_rate_limit` ends every call by
assigning its local `limited_get` closure to the module-global
`requests.get` slot and never restores the previous value: whatever the
transport function was before, after the call every code path in the
process that reads `requests.get` observes the limiter closure instead of
the original function. -/
theorem rate_limit_mutates_global_transport (st : PullDataS)
    (req : RequestsModule) (now : ℚ) :
    ((rate_limit st req now).2).get = TransportFn.limitedGet ∧
    TransportFn.limitedGet ≠ TransportFn.originalGet :=
  ⟨rfl, by decide⟩

/-- When responses `r` through `r + fuel` seen by `limited_get`'s loop
are all 429s, the loop sleeps once per response — the server's
`Retry-After` when present, else `delay * 2 ^ retries` — and then raises,
its retry budget exhausted. -/
theorem limited_get_go_all_throttled (d : ℚ) (rs : Nat → LGResp) :
    ∀ fuel r, (∀ i, r ≤ i → i ≤ r + fuel → isThrottled (rs i) = true) →
      limited_get_go d rs r fuel
        = ((List.range' r (fuel + 1)).map
            (fun i => retryWait d i (raOf (rs i))),
           LGOutcome.exceeded) := by
  intro fuel
  induction fuel with
  | zero =>
    intro r h
    have h0 := h r (Nat.le_refl r) (by omega)
    cases hr : rs r with
    | done s => rw [hr] at h0; simp [isThrottled] at h0
    | throttled ra =>
      rw [limited_get_go.eq_def, hr]
      simp [List.range', raOf, hr]
  | succ n ih =>
    intro r h
    have h0 := h r (Nat.le_refl r) (by omega)
    cases hr : rs r with
    | done s => rw [hr] at h0; simp [isThrottled] at h0
    | throttled ra =>
      have hih := ih (r + 1) (by intro i h1 h2; exact h i (by omega) (by omega))
      rw [limited_get_go.eq_def, hr]
      dsimp only
      rw [hih, List.range'_succ r (n + 1) 1, List.map_cons]
      simp [raOf, hr]

/-- When the loop sees `j` 429s at responses `r` through `r + j - 1` and
then a non-429 response with status `s`, `j` within the retry budget, it
sleeps `j` computed waits and returns that response. -/
theorem limited_get_go_first_success (d : ℚ) (rs : Nat → LGResp) :
    ∀ j fuel r s, (∀ i, r ≤ i → i < r + j → isThrottled (rs i) = true) →
      rs (r + j) = LGResp.done s → j ≤ fuel →
      limited_get_go d rs r fuel
        = ((List.range' r j).map (fun i => retryWait d i (raOf (rs i))),
           LGOutcome.returned s) := by
  intro j
  induction j with
  | zero =>
    intro fuel r s _ hk _
    rw [Nat.add_zero] at hk
    cases fuel with
    | zero =>
      rw [limited_get_go.eq_def, hk]
      simp [List.range']
    | succ f =>
      rw [limited_get_go.eq_def, hk]
      simp [List.range']
  | succ j ih =>
    intro fuel r s h hk hle
    have h0 := h r (Nat.le_refl r) (by omega)
    cases hr : rs r with
    | done s2 => rw [hr] at h0; simp [isThrottled] at h0
    | throttled ra =>
      cases fuel with
      | zero => omega
      | succ f =>
        have hk2 : rs (r + 1 + j) = LGResp.done s := by
          rwa [show r + 1 + j = r + (j + 1) by omega]
        have hih := ih f (r + 1) s
          (by intro i h1 h2; exact h i (by omega) (by omega)) hk2 (by omega)
        rw [limited_get_go.eq_def, hr]
        dsimp only
        rw [hih, List.range'_succ r j 1, List.map_cons]
        simp [raOf, hr]

/-- Claim C6: inside `limited_get`, each 429 response makes the loop wait
the server-supplied `Retry-After` when that header is present and
`rate_limit_delay * 2 ^ retries` otherwise; when the first `max_retries + 1`
responses are all 429 the call raises (`RuntimeError`, the spec's
`RateLimitExceeded`) after those waits, having retried `max_retries`
times; when a non-429 arrives within the budget the loop returns it after
exactly one computed wait per preceding 429. -/
theorem limited_get_backoff (d : ℚ) (m : Nat) (rs : Nat → LGResp) :
    ((∀ i, i ≤ m → isThrottled (rs i) = true) →
        limited_get d m rs
          = ((List.range (m + 1)).map
              (fun i => retryWait d i (raOf (rs i))),
             LGOutcome.exceeded)) ∧
    (∀ k s, (∀ i, i < k → isThrottled (rs i) = true) →
        rs k = LGResp.done s → k ≤ m →
        limited_get d m rs
          = ((List.range k).map
              (fun i => retryWait d i (raOf (rs i))),
             LGOutcome.returned s)) ∧
    (∀ i t, raOf (rs i) = some t → retryWait d i (raOf (rs i)) = t) ∧
    (∀ i, raOf (rs i) = none → retryWait d i (raOf (rs i)) = d * 2 ^ i) := by
  refine ⟨?_, ?_, ?_, ?_⟩
  · intro h
    have := limited_get_go_all_throttled d rs m 0 (by simpa using h)
    simpa [limited_get, List.range_eq_range'] using this
  · intro k s h hk hle
    have := limited_get_go_first_success d rs k m 0 s (by simpa using h)
      (by simpa using hk) hle
    simpa [limited_get, List.range_eq_range'] using this
  · intro i t h
    rw [h, retryWait]
  · intro i h
    rw [h, retryWait]

/-- Witness for `limited_get_backoff`: on the trace `rsW` (429 with
`Retry-After: 7`, 429 without a header, then 200) with `delay = 10` and
`max_retries = 5`, the call waits 7 seconds, then `10 * 2 ^ 1 = 20`
seconds, then returns the 200. -/
theorem limited_get_backoff_witness :
    limited_get 10 5 rsW = ([7, 20], LGOutcome.returned 200) := by
  have h := (limited_get_backoff 10 5 rsW).2.1 2 200 (by decide) (by decide)
    (by decide)
  rw [h]
  norm_num [rsW, retryWait, raOf, List.range_succ]

/-- Claim C4: `fetch_data` raises `ValueError` (the spec's
`InvalidArgument`) for every limit outside `[1, 250]` without running the
`requests.get` line and without touching state; for every limit inside
the range the request is issued, whatever the transport then yields. -/
theorem fetch_data_limit_guard (md : MarketData) (limit : ℤ)
    (resp : HttpResult) (now : Nat) :
    ((limit < 1 ∨ 250 < limit) →
        (md.fetch_data limit resp now).result = FetchResult.invalidLimit ∧
        (md.fetch_data limit resp now).requestIssued = false ∧
        (md.fetch_data limit resp now).state = md) ∧
    (1 ≤ limit → limit ≤ 250 →
        (md.fetch_data limit resp now).requestIssued = true) := by
  constructor
  · intro h
    have hcond : ¬(1 ≤ limit ∧ limit ≤ 250) := by omega
    simp [MarketData.fetch_data, hcond]
  · intro h1 h2
    have hcond : 1 ≤ limit ∧ limit ≤ 250 := ⟨h1, h2⟩
    cases resp <;> simp [MarketData.fetch_data, hcond] <;> split_ifs <;> rfl

/-- Witness for `fetch_data_limit_guard`: `limit = 0` on a fresh client is
rejected with no request and no state change. -/
theorem fetch_data_limit_guard_witness :
    (md0.fetch_data 0 (HttpResult.ok []) 7).result = FetchResult.invalidLimit ∧
    (md0.fetch_data 0 (HttpResult.ok []) 7).requestIssued = false ∧
    (md0.fetch_data 0 (HttpResult.ok []) 7).state = md0 :=
  (fetch_data_limit_guard md0 0 (HttpResult.ok []) 7).1 (Or.inl (by decide))

/-- Claim C8 (counterexample): on an upstream row with no `id` key, an
empty `symbol` and `current_price = -1` — but with `name`, `symbol` and
`current_price` keys present — `fetch_data` succeeds and retains the row:
the snapshot holds a row with an empty symbol and a negative price, and
the id-less row was not dropped. -/
theorem snapshot_validation_counterexample :
    (md0.fetch_data 10 (HttpResult.ok [badRow]) 5).result
        = FetchResult.fetched true ∧
    (md0.fetch_data 10 (HttpResult.ok [badRow]) 5).state._data
        = [{ name := "Coin", symbol := "", current_price := -1, change_24h := 0,
             market_cap := 0, volume_24h := 0, high_24h := 0, low_24h := 0 }] ∧
    badRow.id = none ∧ ((-1 : ℚ) < 0) := by
  refine ⟨rfl, rfl, rfl, by norm_num⟩

/-- Claim C8 as amended: for every in-range limit, a fetch on a parsed
body succeeds exactly when at least one row carries all of the required
keys `name`, `symbol`, `current_price` (the fields the code actually
requires — `id` is never consulted); rows missing one of those keys are
dropped in their entirety and never themselves fail the fetch; retained
rows take their `name`, `symbol` and `current_price` verbatim from the
upstream row, with no further validation (no sign check on the price, no
non-emptiness check on the symbol). -/
theorem snapshot_row_filtering (md : MarketData) (limit : ℤ)
    (rows : List UpstreamRow) (now : Nat) (h1 : 1 ≤ limit)
    (h2 : limit ≤ 250) :
    ((md.fetch_data limit (HttpResult.ok rows) now).result
          = FetchResult.fetched true ↔ rows.filterMap parseRow ≠ []) ∧
    ((md.fetch_data limit (HttpResult.ok rows) now).result
          = FetchResult.fetched true →
        (md.fetch_data limit (HttpResult.ok rows) now).state._data
          = rows.filterMap parseRow) ∧
    (∀ r, parseRow r = none ↔
        (r.name = none ∨ r.symbol = none ∨ r.current_price = none)) ∧
    (∀ r c, parseRow r = some c →
        r.name = some c.name ∧ r.symbol = some c.symbol ∧
          r.current_price = some c.current_price) := by
  have hcond : 1 ≤ limit ∧ limit ≤ 250 := ⟨h1, h2⟩
  refine ⟨?_, ?_, ?_, ?_⟩
  · by_cases hrows : rows.isEmpty
    · rw [List.isEmpty_iff] at hrows
      subst hrows
      simp [MarketData.fetch_data, hcond]
    · by_cases hfm : (rows.filterMap parseRow).isEmpty
      · rw [List.isEmpty_iff] at hfm
        simp [MarketData.fetch_data, hcond, hrows, hfm]
      · rw [List.isEmpty_iff] at hfm
        simp [MarketData.fetch_data, hcond, hrows, hfm]
  · intro hres
    by_cases hrows : rows.isEmpty
    · rw [List.isEmpty_iff] at hrows
      subst hrows
      simp [MarketData.fetch_data, hcond] at hres
    · by_cases hfm : (rows.filterMap parseRow).isEmpty
      · simp [MarketData.fetch_data, hcond, hrows, hfm] at hres
      · simp [MarketData.fetch_data, hcond, hrows, hfm]
  · intro r
    cases hn : r.name <;> cases hs : r.symbol <;> cases hc : r.current_price <;>
      simp [parseRow, hn, hs, hc]
  · intro r c h
    cases hn : r.name <;> cases hs : r.symbol <;> cases hc : r.current_price <;>
      simp [parseRow, hn, hs, hc] at h <;>
      simp [← h, hn, hs, hc]

/-- Witness for `snapshot_row_filtering`: on the single-row body
`[badRow]` the fetch succeeds and the cached table is exactly the
filter-mapped rows. -/
theorem snapshot_row_filtering_witness :
    (md0.fetch_data 10 (HttpResult.ok [badRow]) 0).state._data
      = [badRow].filterMap parseRow :=
  (snapshot_row_filtering md0 10 [badRow] 0 (by decide) (by decide)).2.1 rfl

/-- Rounding half to even sends a non-negative rational to a non-negative
integer. -/
theorem roundHalfEven_nonneg (q : ℚ) (h : 0 ≤ q) : 0 ≤ roundHalfEven q := by
  have hf : (0 : ℤ) ≤ ⌊q⌋ := Int.floor_nonneg.mpr h
  unfold roundHalfEven
  dsimp only
  split_ifs <;> omega

/-- Rounding to two fractional digits preserves non-negativity. -/
theorem roundTo2_nonneg (q : ℚ) (h : 0 ≤ q) : 0 ≤ roundTo2 q := by
  have hr := roundHalfEven_nonneg (q * 100) (by positivity)
  unfold roundTo2
  exact div_nonneg (by exact_mod_cast hr) (by norm_num)

/-- Rounding fixes integers. -/
theorem roundHalfEven_intCast (n : ℤ) : roundHalfEven ((n : ℤ) : ℚ) = n := by
  norm_num [roundHalfEven, Int.floor_intCast]

/-- Rounding to two digits fixes zero. -/
theorem roundTo2_zero : roundTo2 0 = 0 := by
  have h : ((0 : ℚ) * 100) = (((0 : ℤ) : ℤ) : ℚ) := by norm_num
  rw [roundTo2, h, roundHalfEven_intCast]
  norm_num

/-- Rounding to two digits fixes -5. -/
theorem roundTo2_neg_five : roundTo2 (-5) = -5 := by
  have h : ((-5 : ℚ) * 100) = (((-500 : ℤ) : ℤ) : ℚ) := by norm_num
  rw [roundTo2, h, roundHalfEven_intCast]
  norm_num

/-- Claim C9 (counterexample): the portfolio whose log holds the single
accepted Sell of 1 bitcoin at point price 5 — a state `makeTransaction`
reaches from a fresh `Portfolio(100)` — values at exactly -5 under a
price source quoting bitcoin at 5, so `seePortfolioValue` does return a
negative number. -/
theorem valuation_nonneg_counterexample :
    ((Portfolio.init 100).makeTransaction
        ⟨TxKind.sell, "bitcoin", 1, 5⟩).seePortfolioValue
      (fun c => if c = "bitcoin" then some 5 else none) = -5 ∧
    ((-5 : ℚ) < 0) := by
  have hval : (((Portfolio.init 100).makeTransaction
      ⟨TxKind.sell, "bitcoin", 1, 5⟩).seePortfolioValue
        (fun c => if c = "bitcoin" then some 5 else none)) = roundTo2 (-5) := by
    norm_num [Portfolio.init, Portfolio.makeTransaction,
      Portfolio.seePortfolioValue, coinsOf, holdingsOf, List.dedup_cons_of_not_mem]
  rw [hval, roundTo2_neg_five]
  norm_num

/-- Claim C9 as amended: `seePortfolioValue` returns exactly 0 on an
empty log regardless of the price source, and exactly 0 when no
instrument is priced (unpriced instruments are excluded from the sum
rather than failing); the result is non-negative whenever every net
holding and every quoted price is non-negative — a guarantee the source
itself does not provide for holdings, since oversells are unguarded. -/
theorem valuation_amended (p : Portfolio) (prices : String → Option ℚ) :
    (p._transactions = [] → p.seePortfolioValue prices = 0) ∧
    ((∀ c, prices c = none) → p.seePortfolioValue prices = 0) ∧
    ((∀ c, 0 ≤ holdingsOf p._transactions c) →
      (∀ c t, prices c = some t → 0 ≤ t) →
      0 ≤ p.seePortfolioValue prices) := by
  refine ⟨?_, ?_, ?_⟩
  · intro h
    simp [Portfolio.seePortfolioValue, h]
  · intro h
    by_cases he : p._transactions.isEmpty
    · simp [Portfolio.seePortfolioValue, he]
    · simp [Portfolio.seePortfolioValue, he, h, roundTo2_zero]
  · intro hh hp
    by_cases he : p._transactions.isEmpty
    · simp [Portfolio.seePortfolioValue, he]
    · rw [Portfolio.seePortfolioValue, if_neg (by simp [he])]
      apply roundTo2_nonneg
      apply List.sum_nonneg
      intro x hx
      rw [List.mem_map] at hx
      obtain ⟨coin, _, rfl⟩ := hx
      cases hpc : prices coin with
      | none => simp
      | some t =>
        simp only
        exact mul_nonneg (hp coin t hpc) (hh coin)

/-- Witness for `valuation_amended`: a fresh `Portfolio(5)` has an empty
log and values at 0 under the empty price source. -/
theorem valuation_amended_witness :
    (Portfolio.init 5).seePortfolioValue (fun _ => none) = 0 :=
  (valuation_amended (Portfolio.init 5) (fun _ => none)).1 rfl

/-- Claim C10: a `MarketData` instance starts with an empty `_data` table
and `_previous_updates = None`; any `fetch_data` call that does not
return `True` (an out-of-range limit, a 429, a timeout, a connection
error, another exception, an empty body, or a body whose rows are all
filtered out) leaves the whole state — cached table and timestamp —
exactly as it was, and a call that returns `True` replaces the two
together: the table with the filtered rows and the timestamp with the
current time. -/
theorem fetch_data_cache_atomicity (cur : String) (mdi md : MarketData)
    (limit : ℤ) (resp : HttpResult) (now : Nat)
    (h0 : MarketData.mk_init cur = Except.ok mdi) :
    mdi._data = [] ∧ mdi._previous_updates = none ∧
    ((md.fetch_data limit resp now).result ≠ FetchResult.fetched true →
        (md.fetch_data limit resp now).state = md) ∧
    ((md.fetch_data limit resp now).result = FetchResult.fetched true →
        ∃ rows, resp = HttpResult.ok rows ∧
          (md.fetch_data limit resp now).state
            = { md with _data := rows.filterMap parseRow,
                        _previous_updates := some now }) := by
  have hinit : mdi._data = [] ∧ mdi._previous_updates = none := by
    unfold MarketData.mk_init at h0
    split_ifs at h0
    cases h0
    exact ⟨rfl, rfl⟩
  refine ⟨hinit.1, hinit.2, ?_, ?_⟩
  · intro hne
    by_cases hcond : 1 ≤ limit ∧ limit ≤ 250
    · cases resp with
      | ok rows =>
        by_cases hrows : rows.isEmpty
        · simp [MarketData.fetch_data, hcond, hrows]
        · by_cases hfm : (rows.filterMap parseRow).isEmpty
          · simp [MarketData.fetch_data, hcond, hrows, hfm]
          · exact absurd (by simp [MarketData.fetch_data, hcond, hrows, hfm]) hne
      | status429 => simp [MarketData.fetch_data, hcond]
      | timeoutErr => simp [MarketData.fetch_data, hcond]
      | connectionError => simp [MarketData.fetch_data, hcond]
      | requestException => simp [MarketData.fetch_data, hcond]
      | otherException => simp [MarketData.fetch_data, hcond]
    · simp [MarketData.fetch_data, hcond]
  · intro hres
    by_cases hcond : 1 ≤ limit ∧ limit ≤ 250
    · cases resp with
      | ok rows =>
        refine ⟨rows, rfl, ?_⟩
        by_cases hrows : rows.isEmpty
        · simp [MarketData.fetch_data, hcond, hrows] at hres
        · by_cases hfm : (rows.filterMap parseRow).isEmpty
          · simp [MarketData.fetch_data, hcond, hrows, hfm] at hres
          · simp [MarketData.fetch_data, hcond, hrows, hfm]
      | status429 => simp [MarketData.fetch_data, hcond] at hres
      | timeoutErr => simp [MarketData.fetch_data, hcond] at hres
      | connectionError => simp [MarketData.fetch_data, hcond] at hres
      | requestException => simp [MarketData.fetch_data, hcond] at hres
      | otherException => simp [MarketData.fetch_data, hcond] at hres
    · simp [MarketData.fetch_data, hcond] at hres

/-- Witness for `fetch_data_cache_atomicity`: a fresh `MarketData("usd")`
hit by a 429 is returned unchanged. -/
theorem fetch_data_cache_atomicity_witness :
    (md0.fetch_data 10 HttpResult.status429 3).state = md0 :=
  (fetch_data_cache_atomicity "usd" md0 md0 10 HttpResult.status429 3
      rfl).2.2.1 (by decide)
